import Mathlib

/-!
Verification of the reactive state-synchronization core of the
Quest-Resource-Monitor repository: the hierarchical state store with
publish/subscribe broadcast (frontend/modules/state-manager.js), the
resilient request client with retry/backoff (frontend/modules/api-client.js),
and the poll orchestrator with its online/offline recovery machine
(frontend/app.js).

The JavaScript sources are shallowly embedded: JS values become an inductive
type, the sloppy-mode property read/write semantics (optional chaining in
`getState`, plain reads that throw a TypeError on `undefined`/`null` in
`setState`, silent no-op writes on primitive targets) are made explicit, and
a thrown TypeError is modelled by `Option.none`.  Subscriber callbacks are
identified by natural numbers; whether a callback throws when invoked is an
arbitrary parameter `beh`, and the try/catch around each invocation is part
of the embedding.
-/

namespace QRM

/-- A JavaScript value as it occurs in the state tree: `undefined`, `null`,
booleans, numbers, strings, plain objects (insertion-ordered field lists) and
arrays. -/
inductive JsVal : Type
  | undefined
  | null
  | bool (b : Bool)
  | num (n : Int)
  | str (s : String)
  | obj (fields : List (String × JsVal))
  | arr (elems : List JsVal)

/-- Discriminator used to compare a computed value against a numeric literal
without needing decidable equality of whole trees. -/
def JsVal.isNum : JsVal → Bool
  | .num _ => true
  | _ => false

/-- First-match lookup in an insertion-ordered object field list. -/
def lookupField : List (String × JsVal) → String → Option JsVal
  | [], _ => none
  | (k, w) :: rest, key => if k = key then some w else lookupField rest key

/-- Replace the first occurrence of a field, or append a new one: the
semantics of assigning to an object property. -/
def setField : List (String × JsVal) → String → JsVal → List (String × JsVal)
  | [], key, v => [(key, v)]
  | (k, w) :: rest, key, v =>
      if k = key then (k, v) :: rest else (k, w) :: setField rest key v

/-- Split a list of characters at every occurrence of a separator character,
keeping empty segments, as JavaScript `String.prototype.split` does with a
one-character separator. -/
def splitSeg : List Char → Char → List (List Char)
  | [], _ => [[]]
  | c :: cs, sep =>
      let rest := splitSeg cs sep
      if c = sep then [] :: rest
      else
        match rest with
        | [] => [[c]]
        | r :: rs => (c :: r) :: rs

/-- Model of the JS `path.split('.')` used by the state manager. -/
def splitDot (s : String) : List String :=
  (splitSeg s.data (Char.ofNat 46)).map (fun cs => String.mk cs)

/-- Model of `Array.prototype.join('.')`, used to rebuild ancestor paths. -/
def joinDot : List String → String
  | [] => ""
  | [s] => s
  | s :: rest => s ++ "." ++ joinDot rest

/-- Parse a string that denotes a canonical array index (decimal digits, no
leading zero except for the index 0 itself). -/
def decDigits : List Char → Option Nat
  | [] => some 0
  | c :: cs =>
      if c.isDigit then
        (decDigits cs).map (fun n => (c.toNat - 48) * 10 ^ cs.length + n)
      else none

/-- Canonical array-index test for a property key. -/
def parseIndex (s : String) : Option Nat :=
  match s.data with
  | [] => none
  | c :: cs =>
      if c = Char.ofNat 48 ∧ cs ≠ [] then none
      else decDigits (c :: cs)

/-- Plain sloppy-mode property read `target[key]`.  Reading a property of
`undefined` or `null` throws a TypeError, modelled by `none`; reads on other
primitives box the primitive and yield `undefined` (with the string cases
`length` and character indexing handled as in JS); object reads look the
field up, array reads handle `length` and canonical indices. -/
def jsGet : JsVal → String → Option JsVal
  | .undefined, _ => none
  | .null, _ => none
  | .bool _, _ => some .undefined
  | .num _, _ => some .undefined
  | .str s, key =>
      if key = "length" then some (.num (Int.ofNat s.length))
      else
        match parseIndex key with
        | some i =>
            match s.data.get? i with
            | some c => some (.str (String.mk [c]))
            | none => some .undefined
        | none => some .undefined
  | .obj fs, key => some ((lookupField fs key).getD .undefined)
  | .arr xs, key =>
      if key = "length" then some (.num (Int.ofNat xs.length))
      else
        match parseIndex key with
        | some i => some (xs.getD i .undefined)
        | none => some .undefined

/-- Optional-chained read `target?.[key]` as used by `getState`: a nullish
target short-circuits to `undefined` instead of throwing. -/
def optGet (v : JsVal) (key : String) : Option JsVal :=
  match v with
  | .undefined => some .undefined
  | .null => some .undefined
  | _ => jsGet v key

/-- Sloppy-mode property write `target[key] = v` on a non-nullish target:
objects gain or replace the field, arrays update an in-range canonical index
(no claim path writes past the end of an array, so lengthening writes are not
modelled), and writes on primitive targets are silently ignored. -/
def jsSet : JsVal → String → JsVal → JsVal
  | .obj fs, key, v => .obj (setField fs key v)
  | .arr xs, key, v =>
      (match parseIndex key with
        | some i => .arr (xs.set i v)
        | none => .arr xs)
  | t, _, _ => t

/-- The chained optional reads of `getState`'s `for (const key of keys)`
loop. -/
def chainGet : JsVal → List String → Option JsVal
  | v, [] => some v
  | v, k :: ks => (optGet v k).bind (fun w => chainGet w ks)

/-- Model of `getState(path)` from state-manager.js: a missing or falsy path
(the empty string) returns the full tree, otherwise the dot-split segments
are read with optional chaining.  `none` would model a thrown TypeError;
the first conjunct of the C7 theorem below shows the result is always
`some`. -/
def getState (state : JsVal) (path : Option String) : Option JsVal :=
  match path with
  | none => some state
  | some p => if p = "" then some state else chainGet state (splitDot p)

/-- The walk-and-assign sequence of `setState`: descend the intermediate keys
by plain property reads, read the old value at the last key, perform the
sloppy-mode write in place, and return the rebuilt tree together with the old
value.  `none` models the TypeError a plain read throws on `undefined` or
`null`; it occurs before any mutation, so a throwing call leaves the tree
unchanged. -/
def setWalk : JsVal → List String → String → JsVal → Option (JsVal × JsVal)
  | cur, [], lastKey, v =>
      (jsGet cur lastKey).bind (fun oldValue => some (jsSet cur lastKey v, oldValue))
  | cur, k :: ks, lastKey, v =>
      (jsGet cur k).bind (fun child =>
        (setWalk child ks lastKey v).bind (fun r =>
          some (jsSet cur k r.1, r.2)))

/-- The plain (non-optional) read chain `obj = obj[keys[i]]` of `setState`'s
walk, used to phrase when that walk throws. -/
def strictChain : JsVal → List String → Option JsVal
  | v, [] => some v
  | v, k :: ks => (jsGet v k).bind (fun w => strictChain w ks)

/-- Nullish test for JS values. -/
def JsVal.isNullish : JsVal → Bool
  | .undefined => true
  | .null => true
  | _ => false

/-! ### Subscribers

Callbacks are identified by natural numbers.  The `subscribers` map of the
state manager becomes an insertion-ordered association list from path to the
per-path JS `Set`, itself an insertion-ordered duplicate-free list. -/

/-- The subscriber registry: `Map<path, Set<callback>>`. -/
abbrev Subscribers := List (String × List Nat)

/-- Lookup of a per-path callback set (`subscribers.get(path)`). -/
def getSubs : Subscribers → String → Option (List Nat)
  | [], _ => none
  | (q, s) :: rest, p => if q = p then some s else getSubs rest p

/-- Store a per-path callback set (`subscribers.set(path, s)`). -/
def setSubs : Subscribers → String → List Nat → Subscribers
  | [], p, s => [(p, s)]
  | (q, t) :: rest, p, s =>
      if q = p then (q, s) :: rest else (q, t) :: setSubs rest p s

/-- The callbacks registered for a path, empty when the path has no entry. -/
def subsCbs (subs : Subscribers) (p : String) : List Nat :=
  (getSubs subs p).getD []

/-- JS `Set.prototype.add`: a no-op on a member, otherwise an append. -/
def setAdd (s : List Nat) (cb : Nat) : List Nat :=
  if cb ∈ s then s else s ++ [cb]

/-- Model of `subscribe(path, callback)` from state-manager.js: create the
per-path set on first use, then add the callback to it. -/
def subscribe (subs : Subscribers) (path : String) (cb : Nat) : Subscribers :=
  let subs1 := if (getSubs subs path).isSome then subs else setSubs subs path []
  setSubs subs1 path (setAdd (subsCbs subs1 path) cb)

/-- Model of the closure returned by `subscribe`:
`subscribers.get(path)?.delete(callback)`. -/
def unsubscribe (subs : Subscribers) (path : String) (cb : Nat) : Subscribers :=
  match getSubs subs path with
  | none => subs
  | some s => setSubs subs path (s.erase cb)

/-! ### Broadcast -/

/-- One recorded callback invocation: who was called and with which
`(newValue, oldValue, path)` arguments. -/
structure Invocation where
  cb : Nat
  newValue : JsVal
  oldValue : JsVal
  path : String

/-- One `forEach` tier of `broadcastChange`.  Each callback is invoked inside
`try`/`catch`: `beh cb = true` means the callback throws, in which case the
error is logged (second component) and the loop continues with the next
callback. -/
def runTier (beh : Nat → Bool) (cbs : List Nat) (nv ov : JsVal) (p : String) :
    List Invocation × List Nat :=
  match cbs with
  | [] => ([], [])
  | cb :: rest =>
      let t := runTier beh rest nv ov p
      (⟨cb, nv, ov, p⟩ :: t.1, if beh cb then cb :: t.2 else t.2)

/-- The value `getState(parentPath)` reads during broadcast.  `getState`
never returns `none` (proved below), so the `undefined` default is never
used. -/
def stateAt (st : JsVal) (p : String) : JsVal :=
  (getState st (some p)).getD .undefined

/-- The `for (let i = 1; i < parts.length; i++)` loop of `broadcastChange`,
run over the index list: each index selects the ancestor made of the first
`i` segments, whose subscribers are invoked with the ancestor's current value
and a `null` old value. -/
def ancestorTiers (beh : Nat → Bool) (subs : Subscribers) (st : JsVal)
    (path : String) : List Nat → List Invocation × List Nat
  | [] => ([], [])
  | i :: is =>
      let parentPath := joinDot ((splitDot path).take i)
      let here :=
        match getSubs subs parentPath with
        | some cbs => runTier beh cbs (stateAt st parentPath) .null path
        | none => ([], [])
      let rest := ancestorTiers beh subs st path is
      (here.1 ++ rest.1, here.2 ++ rest.2)

/-- Model of `broadcastChange(path, newValue, oldValue)` from
state-manager.js, reading ancestor values from the already-updated tree
`st`: the exact-path tier, then the ancestor tiers for `i = 1` up to
`parts.length - 1`, then the wildcard tier.  Returns the invocation trace
and the log of caught subscriber errors. -/
def broadcastChange (beh : Nat → Bool) (subs : Subscribers) (st : JsVal)
    (path : String) (newValue oldValue : JsVal) : List Invocation × List Nat :=
  let exact :=
    match getSubs subs path with
    | some cbs => runTier beh cbs newValue oldValue path
    | none => ([], [])
  let parts := splitDot path
  let parents := ancestorTiers beh subs st path ((List.range parts.length).drop 1)
  let wild :=
    match getSubs subs "*" with
    | some cbs => runTier beh cbs newValue oldValue path
    | none => ([], [])
  (exact.1 ++ parents.1 ++ wild.1, exact.2 ++ parents.2 ++ wild.2)

/-- Model of `setState(path, value)` from state-manager.js: split the path,
walk the intermediate keys with plain reads, write the value at the last key,
then synchronously broadcast.  `none` models the TypeError thrown by the
walk, which happens before any mutation or broadcast, so in that case the
tree is unchanged and no callback runs. -/
def setState (beh : Nat → Bool) (subs : Subscribers) (state : JsVal)
    (path : String) (value : JsVal) :
    Option (JsVal × List Invocation × List Nat) :=
  let keys := splitDot path
  match setWalk state keys.dropLast (keys.getLastD "") value with
  | none => none
  | some (state1, oldValue) =>
      some (state1, broadcastChange beh subs state1 path value oldValue)

/-- The callback behavior in which no subscriber throws. -/
def bNone : Nat → Bool := fun _ => false

/-- The initial `state` literal of state-manager.js. -/
def initialState : JsVal :=
  .obj [
    ("app", .obj [
      ("initialized", .bool false),
      ("online", .bool false),
      ("lastUpdate", .null),
      ("error", .null)]),
    ("devices", .obj [
      ("pc", .obj [
        ("status", .str "disconnected"),
        ("metrics", .obj [
          ("cpu", .null), ("ram", .null), ("ram_total", .null),
          ("disk", .null), ("disk_total", .null)])]),
      ("quest_3", .obj [
        ("status", .str "disconnected"),
        ("metrics", .obj [
          ("cpu", .null), ("ram", .null), ("ram_total", .null),
          ("temp", .null), ("battery", .null)])])]),
    ("ui", .obj [
      ("graphsOpen", .obj [
        ("pc_cpu", .bool false), ("pc_ram", .bool false),
        ("pc_disk", .bool false), ("quest_cpu", .bool false),
        ("quest_ram", .bool false), ("quest_temp", .bool false),
        ("quest_battery", .bool false)]),
      ("recording", .obj [
        ("active", .bool false), ("sessionId", .null),
        ("elapsed", .num 0), ("startTime", .null)]),
      ("diskModalOpen", .bool false)]),
    ("data", .obj [
      ("histories", .obj [
        ("pc", .obj [("cpu", .arr []), ("ram", .arr []), ("disk", .arr [])]),
        ("quest_3", .obj [
          ("cpu", .arr []), ("ram", .arr []),
          ("temp", .arr []), ("battery", .arr [])])]),
      ("disks", .arr [])])]

/-! ### Spec-side broadcast contract

For the refinement claim about broadcast ordering, a second definition is
written from the words of spec §4.1 alone and compared with the embedding of
the code. -/

/-- The strict ancestor paths of a dot-delimited path, from the shallowest to
the deepest: the joins of the proper nonempty segment prefixes. -/
def specAncestors (path : String) : List String :=
  (List.range ((splitDot path).length - 1)).map
    (fun i => joinDot ((splitDot path).take (i + 1)))

/-- The broadcast contract as worded in spec §4.1: first all callbacks
registered exactly at the path with `(value, oldValue, path)`; then, for
every strict ancestor from shallowest to deepest that has subscribers, its
callbacks with `(currentValueAtAncestor, null, path)`; finally all wildcard
subscribers with `(value, oldValue, path)`. -/
def specBroadcast (subs : Subscribers) (st : JsVal) (path : String)
    (newValue oldValue : JsVal) : List Invocation :=
  (subsCbs subs path).map (fun cb => ⟨cb, newValue, oldValue, path⟩)
  ++ ((specAncestors path).filter (fun a => (getSubs subs a).isSome)).flatMap
      (fun a => (subsCbs subs a).map (fun cb => ⟨cb, stateAt st a, .null, path⟩))
  ++ (subsCbs subs "*").map (fun cb => ⟨cb, newValue, oldValue, path⟩)

/-! ### Request client (api-client.js)

One `fetch` attempt is summarized by its outcome; the environment maps the
1-based attempt number to that outcome, which makes the retry loop a pure
function of the environment. -/

/-- What a single attempt of the `request` loop observes. -/
inductive FetchOutcome : Type
  | success (data : JsVal)
  | httpError (status : Nat) (serverMsg : Option String)
  | networkError (msg : String)
  | abortError
  | malformedBody (msg : String)

/-- The message of the error thrown inside the `try` block for a failing
attempt: for a non-ok response it is `data.error?.message || 'HTTP error
<status>'` (an empty server message is falsy and falls back to the default);
network and body-parse failures carry their own message; an abort carries the
engine's abort message. -/
def thrownMessage : FetchOutcome → Option String
  | .success _ => none
  | .httpError status msg =>
      some (match msg with
        | some m => if m = "" then "HTTP error " ++ toString status else m
        | none => "HTTP error " ++ toString status)
  | .networkError m => some m
  | .abortError => some "The operation was aborted"
  | .malformedBody m => some m

/-- Whether the caught error is the abort error
(`error.name === 'AbortError'`). -/
def isAbort : FetchOutcome → Bool
  | .abortError => true
  | _ => false

/-- JS `String.prototype.includes` needle test at the head of a list. -/
def leadsWith : List Char → List Char → Bool
  | _, [] => true
  | [], _ :: _ => false
  | c :: cs, d :: ds => (c = d) && leadsWith cs ds

/-- Occurrence of a character sequence anywhere in another. -/
def occursIn : List Char → List Char → Bool
  | [], needle => needle.isEmpty
  | c :: rest, needle => leadsWith (c :: rest) needle || occursIn rest needle

/-- Model of `error.message.includes(pat)`. -/
def strIncludes (s pat : String) : Bool :=
  occursIn s.data pat.data

/-- The retry budget `MAX_RETRIES` of api-client.js. -/
def MAX_RETRIES : Nat := 3

/-- The `for (let attempt = 1; attempt <= MAX_RETRIES; attempt++)` loop of
`request`, with the remaining number of loop iterations as fuel.  Mirrors the
catch body: remember the error, break without retry when the message contains
`HTTP error 4`, break with a timeout error on abort, otherwise wait
`2^attempt * 100` ms and retry while attempts remain; when the loop ends the
last observed error is thrown.  Returns the result, the number of attempts
made, and the backoff delays awaited between attempts. -/
def requestAux (env : Nat → FetchOutcome) :
    Nat → Nat → String → Except String JsVal × Nat × List Nat
  | 0, _, lastError => (Except.error lastError, 0, [])
  | fuel + 1, attempt, _ =>
      match env attempt with
      | .success data => (Except.ok data, 1, [])
      | o =>
          let msg := (thrownMessage o).getD ""
          if strIncludes msg "HTTP error 4" then (Except.error msg, 1, [])
          else if isAbort o then (Except.error "Request timeout", 1, [])
          else if attempt < MAX_RETRIES then
            let r := requestAux env fuel (attempt + 1) msg
            (r.1, r.2.1 + 1, 2 ^ attempt * 100 :: r.2.2)
          else (Except.error msg, 1, [])

/-- Model of `request(endpoint, options)`: run the attempt loop with the full
retry budget, starting at attempt 1 with an undefined last error. -/
def request (env : Nat → FetchOutcome) : Except String JsVal × Nat × List Nat :=
  requestAux env MAX_RETRIES 1 ""

/-- An attempt outcome the loop retries: not a success, not classified as a
4xx client error by the message test, and not an abort. -/
def retryable (o : FetchOutcome) : Bool :=
  match o with
  | .success _ => false
  | _ => !(strIncludes ((thrownMessage o).getD "") "HTTP error 4") && !(isAbort o)

/-! ### Poll orchestrator (app.js)

The orchestrator's observable scheduling state: the two interval timers, the
`isPolling` flag, and the pending reconnect timeout.  Events are the firings
its timers can produce; request outcomes are event parameters. -/

/-- The reconnect delay of the `setTimeout` in `pollMetrics`'s failure
branch. -/
def RECONNECT_DELAY : Nat := 5000

/-- The timer state owned by app.js. -/
structure AppState where
  pollTimer : Bool
  devicePollTimer : Bool
  isPolling : Bool
  pendingReconnect : Option Nat

/-- Model of `startPolling`: a no-op while already polling, otherwise set the
flag and install both interval timers. -/
def startPolling (s : AppState) : AppState :=
  if s.isPolling then s
  else { s with isPolling := true, pollTimer := true, devicePollTimer := true }

/-- Model of `stopPolling`: clear both interval timers and the flag. -/
def stopPolling (s : AppState) : AppState :=
  { s with pollTimer := false, devicePollTimer := false, isPolling := false }

/-- The failure handling of `pollMetrics`: when the metrics request fails and
the subsequent health probe also fails, stop all polling and schedule a
single reconnect timeout after `RECONNECT_DELAY`; when either succeeds the
timers are untouched. -/
def pollMetricsStep (s : AppState) (metricsOk healthOk : Bool) : AppState :=
  if metricsOk then s
  else if healthOk then s
  else { stopPolling s with pendingReconnect := some RECONNECT_DELAY }

/-- The reconnect timeout body: the one-shot timer is consumed, then a health
probe runs; on success polling restarts, on failure nothing further is
scheduled. -/
def reconnectFireStep (s : AppState) (healthOk : Bool) : AppState :=
  let s1 : AppState := { s with pendingReconnect := none }
  if healthOk then startPolling s1 else s1

/-- The timer firings the orchestrator can experience. -/
inductive Event : Type
  | slowTick (metricsOk healthOk : Bool)
  | fastTick
  | reconnectFire (healthOk : Bool)

/-- Whether an event's timer is installed at all in a given state. -/
def enabled (s : AppState) : Event → Bool
  | .slowTick _ _ => s.pollTimer
  | .fastTick => s.devicePollTimer
  | .reconnectFire _ => s.pendingReconnect.isSome

/-- One step of the orchestrator: a firing of an installed timer runs its
handler (`pollDeviceStatus` swallows its failures and leaves the timer state
alone); a firing of an absent timer cannot happen and changes nothing. -/
def step (s : AppState) : Event → AppState
  | .slowTick mOk hOk => if s.pollTimer then pollMetricsStep s mOk hOk else s
  | .fastTick => s
  | .reconnectFire hOk =>
      if s.pendingReconnect.isSome then reconnectFireStep s hOk else s

/-- Validity of a path for the round-trip law, read off the claim: starting
from the tree, every intermediate segment resolves to an existing object (and
the final container, the value after the last intermediate segment, is an
object). -/
def objWalk : JsVal → List String → Bool
  | .obj _, [] => true
  | .obj fs, k :: ks =>
      (match lookupField fs k with
        | some child => objWalk child ks
        | none => false)
  | _, _ => false

/-! ### Lemmas about the store -/

theorem optGet_isSome (v : JsVal) (k : String) : (optGet v k).isSome = true := by
  cases v <;> simp only [optGet, jsGet] <;> try rfl
  · split
    · rfl
    · split
      · split <;> rfl
      · rfl
  · split
    · rfl
    · split <;> rfl

theorem chainGet_isSome (ks : List String) (v : JsVal) :
    (chainGet v ks).isSome = true := by
  induction ks generalizing v with
  | nil => rfl
  | cons k ks ih =>
      have h := optGet_isSome v k
      obtain ⟨w, hw⟩ := Option.isSome_iff_exists.mp h
      simp [chainGet, hw, ih]

theorem chainGet_app (l1 l2 : List String) (v : JsVal) :
    chainGet v (l1 ++ l2) = (chainGet v l1).bind (fun w => chainGet w l2) := by
  induction l1 generalizing v with
  | nil => simp [chainGet]
  | cons k ks ih =>
      simp only [List.cons_append, chainGet]
      obtain ⟨w, hw⟩ := Option.isSome_iff_exists.mp (optGet_isSome v k)
      simp [hw, ih]

theorem chainGet_undef (ks : List String) : chainGet .undefined ks = some .undefined := by
  induction ks with
  | nil => rfl
  | cons k ks ih => simpa [chainGet, optGet] using ih

/-- Claim C7 — `getState` never throws: for every dot-delimited path the read
returns a value rather than raising; with no path it returns the full tree;
and once any segment of the path reads as `undefined`, the whole read returns
`undefined`. -/
theorem qrm_c7_get_total (st : JsVal) (path : Option String) :
    (getState st path).isSome = true ∧
    getState st none = some st ∧
    (∀ p pre k post v, p ≠ "" → splitDot p = pre ++ k :: post →
      chainGet st pre = some v → optGet v k = some .undefined →
      getState st (some p) = some .undefined) := by
  refine ⟨?_, rfl, ?_⟩
  · match path with
    | none => rfl
    | some p =>
        by_cases hp : p = "" <;> simp [getState, hp, chainGet_isSome]
  · intro p pre k post v hp hsplit hpre hk
    simp only [getState, if_neg hp, hsplit]
    rw [show pre ++ k :: post = (pre ++ [k]) ++ post by simp]
    rw [chainGet_app, chainGet_app, hpre]
    simp [chainGet, hk, chainGet_undef]

theorem lookupField_setField (fs : List (String × JsVal)) (k : String) (v : JsVal) :
    lookupField (setField fs k v) k = some v := by
  induction fs with
  | nil => simp [setField, lookupField]
  | cons f rest ih =>
      obtain ⟨q, w⟩ := f
      by_cases hq : q = k <;> simp [setField, lookupField, hq, ih]

/-- Core of the round-trip law: under the claim's validity condition the
walk-and-assign succeeds and the written value can be read back along the
same keys. -/
theorem setWalk_roundtrip (ks : List String) (st : JsVal) (lastKey : String)
    (v : JsVal) (hvalid : objWalk st ks = true) :
    ∃ st2 old, setWalk st ks lastKey v = some (st2, old) ∧
      chainGet st2 (ks ++ [lastKey]) = some v := by
  induction ks generalizing st with
  | nil =>
      match st, hvalid with
      | .obj fs, _ =>
          refine ⟨.obj (setField fs lastKey v), (lookupField fs lastKey).getD .undefined,
            rfl, ?_⟩
          simp [chainGet, optGet, jsGet, lookupField_setField]
  | cons k ks ih =>
      match st, hvalid with
      | .obj fs, hvalid =>
          simp only [objWalk] at hvalid
          match hlk : lookupField fs k with
          | none => rw [hlk] at hvalid; exact absurd hvalid (by simp)
          | some child =>
              rw [hlk] at hvalid
              obtain ⟨c2, old, hw, hg⟩ := ih child hvalid
              refine ⟨.obj (setField fs k c2), old, ?_, ?_⟩
              · simp [setWalk, jsGet, hlk, hw, jsSet]
              · simp [List.cons_append, chainGet, optGet, jsGet,
                  lookupField_setField, hg]

theorem dropLast_app_single {α : Type} (l : List α) (a : α) :
    (l ++ [a]).dropLast = l := by
  simp

theorem getLastD_app_single {α : Type} (l : List α) (a d : α) :
    (l ++ [a]).getLastD d = a := by
  cases l <;> simp [List.getLastD]

/-- Claim C8 (amended) — round trip: for every nonempty path whose
intermediate segments all resolve to existing objects, `setState` succeeds
and a subsequent `getState` at the same path returns the written value. -/
theorem qrm_c8_set_get_roundtrip (state : JsVal) (p : String) (v : JsVal)
    (ks : List String) (lastKey : String) (beh : Nat → Bool) (subs : Subscribers)
    (hp : p ≠ "") (hsplit : splitDot p = ks ++ [lastKey])
    (hvalid : objWalk state ks = true) :
    ∃ r, setState beh subs state p v = some r ∧
      getState r.1 (some p) = some v := by
  obtain ⟨st2, old, hw, hg⟩ := setWalk_roundtrip ks state lastKey v hvalid
  refine ⟨⟨st2, broadcastChange beh subs st2 p v old⟩, ?_, ?_⟩
  · simp only [setState, hsplit, dropLast_app_single, getLastD_app_single, hw]
  · simp only [getState, if_neg hp, hsplit, hg]

/-- Witness for C8 (amended): writing `true` at `app.online` in the initial
tree and reading it back returns `true`. -/
theorem qrm_c8_set_get_roundtrip_witness :
    ∃ r, setState bNone [] initialState "app.online" (.bool true) = some r ∧
      getState r.1 (some "app.online") = some (.bool true) :=
  qrm_c8_set_get_roundtrip initialState "app.online" (.bool true)
    ["app"] "online" bNone [] (by decide) (by decide) (by decide)

/-- Counterexample for C8 as stated: the empty path has no intermediate
segments, so it vacuously satisfies the claim's validity condition, yet
`set('', v)` stores `v` under the key `''` while `get('')` takes the falsy
branch and returns the whole tree, which is an object and not the written
number. -/
theorem qrm_c8_counterexample :
    ((setState bNone [] initialState "" (.num 5)).bind
        (fun r => getState r.1 (some ""))) ≠ some (.num 5) := by
  intro h
  have h1 : (some false : Option Bool) = some true :=
    congrArg (Option.map JsVal.isNum) h
  exact absurd (Option.some.inj h1) (by decide)

/-- Once the plain-read walk holds a nullish value, the remaining reads of
`setState`'s walk throw, whatever keys are left. -/
theorem setWalk_nullish_none (pre suffix : List String) (st : JsVal)
    (lastKey : String) (v w : JsVal) (hw : strictChain st pre = some w)
    (hnull : w.isNullish = true) :
    setWalk st (pre ++ suffix) lastKey v = none := by
  induction pre generalizing st with
  | nil =>
      simp only [strictChain, Option.some.injEq] at hw
      subst hw
      cases st with
      | undefined => cases suffix <;> rfl
      | null => cases suffix <;> rfl
      | bool b => exact absurd hnull (by simp [JsVal.isNullish])
      | num n => exact absurd hnull (by simp [JsVal.isNullish])
      | str s => exact absurd hnull (by simp [JsVal.isNullish])
      | obj fs => exact absurd hnull (by simp [JsVal.isNullish])
      | arr xs => exact absurd hnull (by simp [JsVal.isNullish])
  | cons k ks ih =>
      simp only [strictChain] at hw
      match hk : jsGet st k with
      | none => rw [hk] at hw; exact absurd hw (by simp)
      | some c =>
          rw [hk] at hw
          simp only [Option.some_bind] at hw
          simp [setWalk, hk, ih c hw]

/-- Claim C9 (amended) — when the plain-read walk of `setState` reaches
`undefined` or `null` at some intermediate prefix (for example because a key
is absent), `setState` throws a TypeError; the throw happens before the write
and before the broadcast, so the tree is unchanged and no subscriber runs. -/
theorem qrm_c9_set_throws_on_nullish (state : JsVal) (p : String) (v : JsVal)
    (beh : Nat → Bool) (subs : Subscribers) (ks pre suffix : List String)
    (lastKey : String) (w : JsVal)
    (hsplit : splitDot p = ks ++ [lastKey]) (hks : ks = pre ++ suffix)
    (hw : strictChain state pre = some w) (hnull : w.isNullish = true) :
    setState beh subs state p v = none := by
  simp only [setState, hsplit, dropLast_app_single, getLastD_app_single, hks]
  rw [setWalk_nullish_none pre suffix state lastKey v w hw hnull]

/-- Witness for C9 (amended): the path `devices.vr.status` has the absent
intermediate key `vr`, so its write on the initial tree throws. -/
theorem qrm_c9_set_throws_on_nullish_witness :
    setState bNone [] initialState "devices.vr.status" (.num 0) = none :=
  qrm_c9_set_throws_on_nullish initialState "devices.vr.status" (.num 0)
    bNone [] ["devices", "vr"] ["devices", "vr"] [] "status" .undefined
    (by decide) rfl rfl rfl

/-- Counterexample for C9 as stated: the intermediate segment `initialized`
of `app.initialized.x` resolves to the boolean `false`, which is not an
object, yet `setState` does not throw there — the sloppy-mode write on the
boxed primitive is silently ignored and the broadcast still invokes the
subscriber once. -/
theorem qrm_c9_counterexample :
    (setState bNone (subscribe [] "app.initialized.x" 0) initialState
      "app.initialized.x" (.num 1)).map (fun r => r.2.1.length) = some 1 := rfl

/-- Witness for C7: on the initial tree, a concrete read is total, the empty
read returns the tree, and the path `app.missing.x`, whose second segment is
absent, reads as `undefined`. -/
theorem qrm_c7_get_total_witness :
    (getState initialState (some "devices.pc.status")).isSome = true ∧
    getState initialState none = some initialState ∧
    getState initialState (some "app.missing.x") = some .undefined := by
  refine ⟨(qrm_c7_get_total initialState (some "devices.pc.status")).1,
    (qrm_c7_get_total initialState none).2.1,
    (qrm_c7_get_total initialState none).2.2 "app.missing.x" ["app"] "missing" ["x"]
      (.obj [("initialized", .bool false), ("online", .bool false),
             ("lastUpdate", .null), ("error", .null)])
      (by decide) (by decide) rfl rfl⟩

/-! ### Lemmas about broadcast -/

theorem runTier_fst (beh : Nat → Bool) (cbs : List Nat) (nv ov : JsVal)
    (p : String) :
    (runTier beh cbs nv ov p).1 = cbs.map (fun cb => ⟨cb, nv, ov, p⟩) := by
  induction cbs with
  | nil => rfl
  | cons cb rest ih => simp [runTier, ih]

theorem runTier_snd (beh : Nat → Bool) (cbs : List Nat) (nv ov : JsVal)
    (p : String) :
    (runTier beh cbs nv ov p).2 = cbs.filter beh := by
  induction cbs with
  | nil => rfl
  | cons cb rest ih =>
      by_cases hb : beh cb <;> simp [runTier, List.filter, hb, ih]

theorem ancestorTiers_fst (beh : Nat → Bool) (subs : Subscribers) (st : JsVal)
    (path : String) (is : List Nat) :
    (ancestorTiers beh subs st path is).1 =
      ((is.map (fun i => joinDot ((splitDot path).take i))).filter
          (fun a => (getSubs subs a).isSome)).flatMap
        (fun a => (subsCbs subs a).map (fun cb => ⟨cb, stateAt st a, .null, path⟩)) := by
  induction is with
  | nil => rfl
  | cons i is ih =>
      simp only [ancestorTiers, List.map_cons, List.filter]
      match hg : getSubs subs (joinDot ((splitDot path).take i)) with
      | some cbs =>
          simp [hg, runTier_fst, ih, subsCbs]
      | none =>
          simp [hg, ih]

theorem map_comp_cb (cbs : List Nat) (nv ov : JsVal) (p : String) :
    cbs.map (Invocation.cb ∘ (fun cb => (⟨cb, nv, ov, p⟩ : Invocation))) = cbs := by
  induction cbs with
  | nil => rfl
  | cons c cs ih => simp only [List.map_cons, Function.comp, ih]

theorem ancestorTiers_snd (beh : Nat → Bool) (subs : Subscribers) (st : JsVal)
    (path : String) (is : List Nat) :
    (ancestorTiers beh subs st path is).2 =
      ((ancestorTiers beh subs st path is).1.map Invocation.cb).filter beh := by
  induction is with
  | nil => rfl
  | cons i is ih =>
      simp only [ancestorTiers]
      match hg : getSubs subs (joinDot ((splitDot path).take i)) with
      | some cbs =>
          simp only [hg, List.map_append, List.filter_append, ih,
            runTier_fst, runTier_snd, List.map_map, map_comp_cb]
      | none => simp [hg, ih]

theorem range_drop_one (n : Nat) :
    (List.range n).drop 1 = (List.range (n - 1)).map (· + 1) := by
  cases n with
  | zero => rfl
  | succ m => simp [List.range_succ_eq_map]

/-- The invocation trace of the code's broadcast equals the spec's broadcast
contract, for every behavior, subscriber registry, tree, path and value
pair. -/
theorem broadcastChange_fst (beh : Nat → Bool) (subs : Subscribers) (st : JsVal)
    (path : String) (nv ov : JsVal) :
    (broadcastChange beh subs st path nv ov).1 = specBroadcast subs st path nv ov := by
  simp only [broadcastChange, specBroadcast]
  have hexact : ∀ q,
      (match getSubs subs q with
        | some cbs => runTier beh cbs nv ov path
        | none => (([] : List Invocation), ([] : List Nat))).1 =
      (subsCbs subs q).map (fun cb => ⟨cb, nv, ov, path⟩) := by
    intro q
    match hg : getSubs subs q with
    | some cbs => simp [hg, runTier_fst, subsCbs]
    | none => simp [hg, subsCbs]
  rw [hexact path, hexact "*"]
  congr 1
  congr 1
  rw [ancestorTiers_fst, range_drop_one, List.map_map, specAncestors]
  rfl

/-- Caught-and-logged characterization: the error log of a broadcast is
exactly the throwing callbacks among the invoked ones, in invocation
order. -/
theorem broadcastChange_snd (beh : Nat → Bool) (subs : Subscribers) (st : JsVal)
    (path : String) (nv ov : JsVal) :
    (broadcastChange beh subs st path nv ov).2 =
      ((broadcastChange beh subs st path nv ov).1.map Invocation.cb).filter beh := by
  simp only [broadcastChange]
  have htier : ∀ q,
      (match getSubs subs q with
        | some cbs => runTier beh cbs nv ov path
        | none => (([] : List Invocation), ([] : List Nat))).2 =
      ((match getSubs subs q with
        | some cbs => runTier beh cbs nv ov path
        | none => (([] : List Invocation), ([] : List Nat))).1.map
          Invocation.cb).filter beh := by
    intro q
    match hg : getSubs subs q with
    | some cbs =>
        simp only [hg, runTier_fst, runTier_snd, List.map_map, map_comp_cb]
    | none => simp [hg]
  simp only [List.map_append, List.filter_append]
  rw [htier path, htier "*", ancestorTiers_snd]

/-- Claim C1 — three-tier broadcast order: for every `set`, by the time it
returns the subscribers have been invoked synchronously in the deterministic
order of the spec contract: first the exact-path callbacks with
`(value, oldValue, path)`, then for every strict ancestor from shallowest to
deepest that has subscribers its callbacks with
`(currentValueAtAncestor, null, path)` — the old value is never propagated to
ancestors — and finally the wildcard callbacks with
`(value, oldValue, path)`. -/
theorem qrm_c1_broadcast_order (beh : Nat → Bool) (subs : Subscribers)
    (st : JsVal) (path : String) (nv ov : JsVal) :
    (broadcastChange beh subs st path nv ov).1 = specBroadcast subs st path nv ov :=
  broadcastChange_fst beh subs st path nv ov

/-- Claim C6 — subscriber failure isolation: the invocation trace of a
broadcast does not depend on which callbacks throw (every remaining callback
in the same and in later tiers still runs), the error log is exactly the
caught throwing callbacks, and whether `setState` itself throws is
independent of the callbacks' behavior — no subscriber exception reaches the
caller of `set`. -/
theorem qrm_c6_failure_isolation (beh beh2 : Nat → Bool) (subs : Subscribers)
    (st : JsVal) (path : String) (nv ov : JsVal) :
    (broadcastChange beh subs st path nv ov).1 =
      (broadcastChange beh2 subs st path nv ov).1 ∧
    (broadcastChange beh subs st path nv ov).2 =
      ((broadcastChange beh subs st path nv ov).1.map Invocation.cb).filter beh ∧
    (∀ v, (setState beh subs st path v).isSome =
      (setState beh2 subs st path v).isSome) := by
  refine ⟨?_, broadcastChange_snd beh subs st path nv ov, ?_⟩
  · rw [broadcastChange_fst, broadcastChange_fst]
  · intro v
    simp only [setState]
    match setWalk st (splitDot path).dropLast ((splitDot path).getLastD "") v with
    | none => rfl
    | some (st1, old) => rfl

/-! ### Lemmas about subscription -/

theorem getSubs_setSubs_self (subs : Subscribers) (p : String) (s : List Nat) :
    getSubs (setSubs subs p s) p = some s := by
  induction subs with
  | nil => simp [setSubs, getSubs]
  | cons e rest ih =>
      obtain ⟨q, t⟩ := e
      by_cases hq : q = p <;> simp [setSubs, getSubs, hq, ih]

theorem setSubs_setSubs (subs : Subscribers) (p : String) (s t : List Nat) :
    setSubs (setSubs subs p s) p t = setSubs subs p t := by
  induction subs with
  | nil => simp [setSubs]
  | cons e rest ih =>
      obtain ⟨q, u⟩ := e
      by_cases hq : q = p <;> simp [setSubs, hq, ih]

theorem setAdd_idem (s : List Nat) (cb : Nat) :
    setAdd (setAdd s cb) cb = setAdd s cb := by
  unfold setAdd
  by_cases h : cb ∈ s <;> simp [h]

theorem subscribe_getSubs_self (subs : Subscribers) (p : String) (cb : Nat) :
    getSubs (subscribe subs p cb) p = some (setAdd (subsCbs subs p) cb) := by
  unfold subscribe
  match hg : getSubs subs p with
  | some s => simp [hg, getSubs_setSubs_self, subsCbs]
  | none => simp [hg, getSubs_setSubs_self, subsCbs]

/-- Claim C3 (amended) — JS `Set` registration semantics: registering the
same callback twice for the same path is idempotent (it is stored once, so a
`set` at the path invokes it once, as the concrete third conjunct shows), and
the unsubscribe function returned by either registration removes that single
registration entirely, restoring the previous callback list. -/
theorem qrm_c3_double_subscribe (subs : Subscribers) (p : String) (cb : Nat)
    (hmem : cb ∉ subsCbs subs p) :
    subscribe (subscribe subs p cb) p cb = subscribe subs p cb ∧
    subsCbs (unsubscribe (subscribe subs p cb) p cb) p = subsCbs subs p ∧
    ((setState bNone (subscribe (subscribe [] "app.online" 0) "app.online" 0)
        initialState "app.online" (.bool true)).map
      (fun r => r.2.1.countP (fun inv => inv.cb == 0)) = some 1) := by
  refine ⟨?_, ?_, ?_⟩
  · have h1 := subscribe_getSubs_self subs p cb
    conv_lhs => rw [subscribe]
    rw [h1]
    simp only [Option.isSome_some, if_true, subsCbs, Option.getD_some, setAdd_idem]
    unfold subscribe
    match hg : getSubs subs p with
    | some s =>
        simp [hg, setSubs_setSubs, getSubs_setSubs_self, subsCbs, setAdd_idem]
    | none =>
        simp [hg, setSubs_setSubs, getSubs_setSubs_self, subsCbs, setAdd_idem]
  · have h1 := subscribe_getSubs_self subs p cb
    unfold unsubscribe
    rw [h1]
    rw [subsCbs, getSubs_setSubs_self]
    unfold setAdd
    rw [if_neg hmem]
    rw [List.erase_append_right _ hmem, List.erase_cons_head]
    simp
  · rfl

/-- Witness for C3 (amended): with no prior registrations at `app.error`,
double-subscribing callback 0 is idempotent and its unsubscribe removes the
registration. -/
theorem qrm_c3_double_subscribe_witness :
    subscribe (subscribe [] "app.error" 0) "app.error" 0 =
      subscribe [] "app.error" 0 ∧
    subsCbs (unsubscribe (subscribe [] "app.error" 0) "app.error" 0) "app.error" =
      subsCbs [] "app.error" ∧
    ((setState bNone (subscribe (subscribe [] "app.online" 0) "app.online" 0)
        initialState "app.online" (.bool true)).map
      (fun r => r.2.1.countP (fun inv => inv.cb == 0)) = some 1) :=
  qrm_c3_double_subscribe [] "app.error" 0 (by decide)

/-- Counterexample for C3 as stated: registering the same callback twice via
`subscribe` stores it in a `Set`, so a `set` at the path invokes it once, not
twice. -/
theorem qrm_c3_counterexample :
    ((setState bNone (subscribe (subscribe [] "app.online" 0) "app.online" 0)
        initialState "app.online" (.bool true)).map
      (fun r => r.2.1.countP (fun inv => inv.cb == 0))) ≠ some 2 := by
  intro h
  exact absurd (Option.some.inj (show (some 1 : Option Nat) = some 2 from h))
    (by decide)

/-- Claim C10 — wildcard double invocation: a `setState` whose path is the
wildcard string itself fires the wildcard subscribers once in the exact-path
tier and once more in the wildcard tier, so each wildcard callback runs
exactly twice. -/
theorem qrm_c10_wildcard_double (beh : Nat → Bool) (subs : Subscribers)
    (fs : List (String × JsVal)) (v : JsVal) (cb : Nat)
    (h : (subsCbs subs "*").count cb = 1) :
    ∃ r, setState beh subs (.obj fs) "*" v = some r ∧
      r.2.1.countP (fun inv => inv.cb == cb) = 2 := by
  refine ⟨_, rfl, ?_⟩
  rw [broadcastChange_fst]
  simp only [specBroadcast]
  rw [show specAncestors "*" = [] from rfl]
  simp only [List.filter_nil, List.flatMap_nil, List.append_nil]
  rw [List.countP_append, List.countP_map]
  show (subsCbs subs "*").count cb + (subsCbs subs "*").count cb = 2
  rw [h]

/-- Witness for C10: with callback 7 as the only wildcard subscriber,
`setState('*', 3)` on an empty object invokes it twice. -/
theorem qrm_c10_wildcard_double_witness :
    ∃ r, setState bNone (subscribe [] "*" 7) (.obj []) "*" (.num 3) = some r ∧
      r.2.1.countP (fun inv => inv.cb == 7) = 2 :=
  qrm_c10_wildcard_double bNone (subscribe [] "*" 7) [] (.num 3) 7 (by decide)

/-! ### Lemmas about the request loop -/

theorem retryable_facts (o : FetchOutcome) (h : retryable o = true) :
    strIncludes ((thrownMessage o).getD "") "HTTP error 4" = false ∧
      isAbort o = false := by
  cases o <;> simp [retryable, isAbort] at h ⊢ <;> exact h

theorem requestAux_retry (env : Nat → FetchOutcome) (fuel attempt : Nat)
    (l : String) (h : retryable (env attempt) = true)
    (hlt : attempt < MAX_RETRIES) :
    requestAux env (fuel + 1) attempt l =
      ((requestAux env fuel (attempt + 1) ((thrownMessage (env attempt)).getD "")).1,
       (requestAux env fuel (attempt + 1) ((thrownMessage (env attempt)).getD "")).2.1 + 1,
       2 ^ attempt * 100 ::
         (requestAux env fuel (attempt + 1) ((thrownMessage (env attempt)).getD "")).2.2) := by
  have hf := retryable_facts (env attempt) h
  cases henv : env attempt with
  | success d => rw [henv] at h; simp [retryable] at h
  | httpError st m =>
      rw [henv] at hf
      simp [requestAux, henv, hf.1, isAbort, hlt]
  | networkError m =>
      rw [henv] at hf
      simp [requestAux, henv, hf.1, isAbort, hlt]
  | abortError =>
      rw [henv] at hf
      simp [isAbort] at hf
  | malformedBody m =>
      rw [henv] at hf
      simp [requestAux, henv, hf.1, isAbort, hlt]

theorem requestAux_last (env : Nat → FetchOutcome) (fuel : Nat) (l : String)
    (h : retryable (env MAX_RETRIES) = true) :
    requestAux env (fuel + 1) MAX_RETRIES l =
      (Except.error ((thrownMessage (env MAX_RETRIES)).getD ""), 1, []) := by
  have hf := retryable_facts (env MAX_RETRIES) h
  cases henv : env MAX_RETRIES with
  | success d => rw [henv] at h; simp [retryable] at h
  | httpError st m =>
      rw [henv] at hf
      simp [requestAux, henv, hf.1, isAbort]
  | networkError m =>
      rw [henv] at hf
      simp [requestAux, henv, hf.1, isAbort]
  | abortError =>
      rw [henv] at hf
      simp [isAbort] at hf
  | malformedBody m =>
      rw [henv] at hf
      simp [requestAux, henv, hf.1, isAbort]

/-- Claim C5 — retry exhaustion: when every attempt fails with a retryable
error, exactly `MAX_RETRIES` (3) attempts are made, the inter-attempt delays
are `100 * 2^attempt` for attempts 1 and 2 and hence strictly increasing, and
the call fails with the last observed error. -/
theorem qrm_c5_retry_exhaustion (env : Nat → FetchOutcome)
    (h1 : retryable (env 1) = true) (h2 : retryable (env 2) = true)
    (h3 : retryable (env 3) = true) :
    request env =
      (Except.error ((thrownMessage (env 3)).getD ""), 3,
        [2 ^ 1 * 100, 2 ^ 2 * 100]) ∧
      2 ^ 1 * 100 < 2 ^ 2 * 100 := by
  constructor
  · have e1 : requestAux env 3 1 "" = _ :=
      requestAux_retry env 2 1 "" h1 (by decide)
    have e2 : requestAux env 2 2 ((thrownMessage (env 1)).getD "") = _ :=
      requestAux_retry env 1 2 ((thrownMessage (env 1)).getD "") h2 (by decide)
    have e3 : requestAux env 1 3 ((thrownMessage (env 2)).getD "") =
        (Except.error ((thrownMessage (env 3)).getD ""), 1, []) :=
      requestAux_last env 0 ((thrownMessage (env 2)).getD "") h3
    show requestAux env 3 1 "" = _
    rw [e1, e2, e3]
  · decide

/-- Witness for C5: an endpoint that answers HTTP 500 with no body message on
every attempt is retried to exhaustion with delays 200 ms and 400 ms and
fails with the default message of the last attempt. -/
theorem qrm_c5_retry_exhaustion_witness :
    (request (fun _ => FetchOutcome.httpError 500 none) =
      (Except.error "HTTP error 500", 3, [2 ^ 1 * 100, 2 ^ 2 * 100]) ∧
      2 ^ 1 * 100 < 2 ^ 2 * 100) :=
  qrm_c5_retry_exhaustion (fun _ => FetchOutcome.httpError 500 none)
    (by decide) (by decide) (by decide)

/-- Claim C2 — evaluation at the failing input: a 404 response whose body
carries a server message makes the thrown message the server message, which
does not contain the string `HTTP error 4`, so the client-error check misses
and the request is retried to exhaustion (3 attempts with 200 ms and 400 ms
backoff) instead of failing immediately; a 404 without a body message keeps
the default `HTTP error 404` message and is correctly attempted exactly once
with no delay. -/
theorem qrm_c2_4xx_message_retried :
    (request (fun _ => FetchOutcome.httpError 404 (some "device not found")) =
      (Except.error "device not found", 3, [200, 400])) ∧
    (request (fun _ => FetchOutcome.httpError 404 none) =
      (Except.error "HTTP error 404", 1, [])) :=
  ⟨rfl, rfl⟩

/-- Claim C4 — offline transition and single-shot reconnect: from a state
with both poll timers installed, a slow-stream tick whose metrics poll and
subsequent health probe both fail stops both poll streams and schedules one
reconnect timeout after the fixed 5000 ms delay; if that probe succeeds both
streams restart; if it fails, the resulting state has no installed timer and
no pending timeout, no event is enabled in it, and no sequence of events ever
changes it — no further poll or probe fires without external
intervention. -/
theorem qrm_c4_offline_single_probe (s : AppState) (hp : s.pollTimer = true) :
    step s (.slowTick false false) =
      ⟨false, false, false, some RECONNECT_DELAY⟩ ∧
    RECONNECT_DELAY = 5000 ∧
    step ⟨false, false, false, some RECONNECT_DELAY⟩ (.reconnectFire true) =
      ⟨true, true, true, none⟩ ∧
    step ⟨false, false, false, some RECONNECT_DELAY⟩ (.reconnectFire false) =
      ⟨false, false, false, none⟩ ∧
    (∀ e, enabled ⟨false, false, false, none⟩ e = false) ∧
    (∀ evs : List Event, evs.foldl step ⟨false, false, false, none⟩ =
      ⟨false, false, false, none⟩) := by
  refine ⟨?_, rfl, rfl, rfl, ?_, ?_⟩
  · simp [step, hp, pollMetricsStep, stopPolling]
  · intro e
    cases e <;> rfl
  · intro evs
    induction evs with
    | nil => rfl
    | cons e evs ih =>
        have hstep : step ⟨false, false, false, none⟩ e =
            ⟨false, false, false, none⟩ := by
          cases e <;> rfl
        simp only [List.foldl_cons, hstep, ih]

/-- Witness for C4: the conclusions at the concrete online state with both
timers installed. -/
theorem qrm_c4_offline_single_probe_witness :
    step ⟨true, true, true, none⟩ (.slowTick false false) =
      ⟨false, false, false, some RECONNECT_DELAY⟩ ∧
    RECONNECT_DELAY = 5000 ∧
    step ⟨false, false, false, some RECONNECT_DELAY⟩ (.reconnectFire true) =
      ⟨true, true, true, none⟩ ∧
    step ⟨false, false, false, some RECONNECT_DELAY⟩ (.reconnectFire false) =
      ⟨false, false, false, none⟩ ∧
    (∀ e, enabled ⟨false, false, false, none⟩ e = false) ∧
    (∀ evs : List Event, evs.foldl step ⟨false, false, false, none⟩ =
      ⟨false, false, false, none⟩) :=
  qrm_c4_offline_single_probe ⟨true, true, true, none⟩ rfl

end QRM
